import Mathlib

/-!
Verification of the amz-book-image repository core:
the URL validator and seven-strategy extraction chain of
`app/core/image_extractor.py`, the dual-backend cache of
`app/utils/cache.py`, and the `/book-image` route of `app/api/routes.py`,
shallowly embedded in Lean.
-/

namespace AmzBookImage

/-! ## String helpers (Python `in`, `str.lower`) -/

/-- Test `startsWithL needle hay` : does `hay` start with `needle`? -/
def startsWithL : List Char → List Char → Bool
  | [], _ => true
  | _ :: _, [] => false
  | c :: cs, d :: ds => c = d && startsWithL cs ds

/-- Test `hasSub needle hay` : does `needle` occur as a contiguous substring of
`hay`?  Models the Python `needle in hay` test on strings. -/
def hasSub : List Char → List Char → Bool
  | n, [] => startsWithL n []
  | n, c :: cs => startsWithL n (c :: cs) || hasSub n cs

/-- Python `needle in hay` on strings. -/
def containsSub (needle hay : String) : Bool :=
  hasSub needle.toList hay.toList

/-- Python `s.startswith(pre)`. -/
def strStartsWith (pre s : String) : Bool :=
  startsWithL pre.toList s.toList

/-- Python `str.lower()` (ASCII case folding, which is all the code relies
on). -/
def strLower (s : String) : String :=
  String.mk (s.toList.map Char.toLower)

/-! ## The URL validator (`ImageExtractor.is_valid_image_url`) -/

/-- List `PLACEHOLDER_IMAGES` from `image_extractor.py`: markers of known
placeholder / loading images. -/
def PLACEHOLDER_IMAGES : List String :=
  ["grey-pixel.gif", "transparent-pixel.gif", "loading-img", "no-img",
   "no-image", "placeholder", "spinner", "loading", "blank"]

/-- List `image_extensions` from `is_valid_image_url`. -/
def image_extensions : List String :=
  [".jpg", ".jpeg", ".png", ".gif", ".webp"]

/-- One attempt of the regular expression `_SX(\d+)_` (with `X` replaced by
the parameter `x`) anchored at the head of the list: `_S`, then `x`, then one
or more digits, then `_`; returns the digit group's integer value. -/
def dimTry (x : Char) (l : List Char) : Option Nat :=
  match l with
  | '_' :: 'S' :: c :: rest =>
    if c = x then
      let ds := rest.takeWhile Char.isDigit
      let rest' := rest.dropWhile Char.isDigit
      match ds, rest' with
      | [], _ => none
      | _ :: _, '_' :: _ => some (ds.foldl (fun a c => a * 10 + (c.toNat - 48)) 0)
      | _ :: _, _ => none
    else none
  | _ => none

/-- Model of `re.search(r'_SX(\d+)_', url)` (for `x = 'X'`; `x = 'Y'` gives the
`_SY(\d+)_` search): the leftmost match wins, later positions are tried when
an earlier `_S` prefix fails to complete a match. -/
def dimSearch (x : Char) : List Char → Option Nat
  | [] => none
  | c :: cs =>
    match dimTry x (c :: cs) with
    | some n => some n
    | none => dimSearch x cs

/-- The parsed width token `_SX(\d+)_` of a URL, when present. -/
def sxVal (url : String) : Option Nat := dimSearch 'X' url.toList

/-- The parsed height token `_SY(\d+)_` of a URL, when present. -/
def syVal (url : String) : Option Nat := dimSearch 'Y' url.toList

/-- The dimension filter inside `is_valid_image_url` (lines 88-101): active
only when both `'SX'` and `'SY'` occur in the URL and both regular
expressions match; rejects when either parsed dimension is below 100. -/
def dimensionRejected (url : String) : Bool :=
  if containsSub "SX" url && containsSub "SY" url then
    match sxVal url, syVal url with
    | some w, some h => decide (w < 100) || decide (h < 100)
    | _, _ => false
  else false

/-- Flag `has_extension` of `is_valid_image_url`: a recognized image extension
occurs in the lowercased URL. -/
def hasImageExtension (url : String) : Bool :=
  image_extensions.any (fun e => containsSub e (strLower url))

/-- Flag `is_amazon_image` of `is_valid_image_url` (case-sensitive substring
tests, as in the source). -/
def isAmazonImage (url : String) : Bool :=
  containsSub "amazon" url || containsSub "images-na.ssl-images-amazon.com" url

/-- Predicate `ImageExtractor.is_valid_image_url` (image_extractor.py lines 68-103).
A total function: the source's `try/except` around the dimension parse can
never fire (the digit group always parses), and no other operation throws. -/
def is_valid_image_url (url : String) : Bool :=
  if url = "" then false
  else if PLACEHOLDER_IMAGES.any (fun p => containsSub p (strLower url)) then false
  else if dimensionRejected url then false
  else isAmazonImage url && (hasImageExtension url || containsSub "images-amazon" url)

/-! ## Document model (parsed HTML, the `soup`) -/

/-- A parsed HTML node: an element with tag, attributes and children, or a
text node. -/
inductive Node where
  | elem (tag : String) (attrs : List (String × String)) (children : List Node)
  | text (s : String)

/-- A parsed document: the top-level nodes in document order. -/
abbrev Soup := List Node

/-- First binding of an attribute name in an attribute list. -/
def lookupAttr : List (String × String) → String → Option String
  | [], _ => none
  | (k, v) :: rest, a => if k = a then some v else lookupAttr rest a

/-- Attribute lookup on a node (text nodes have no attributes). -/
def Node.attr? : Node → String → Option String
  | .elem _ attrs _, a => lookupAttr attrs a
  | .text _, _ => none

/-- BeautifulSoup `tag.has_attr(a)`. -/
def Node.hasAttr (n : Node) (a : String) : Bool := (n.attr? a).isSome

/-- BeautifulSoup `tag.get(a, d)`; also used for `tag[a]` after a
`has_attr` guard. -/
def Node.attrD (n : Node) (a d : String) : String := (n.attr? a).getD d

/-- The tag name of an element node. -/
def Node.tag? : Node → Option String
  | .elem t _ _ => some t
  | .text _ => none

mutual
/-- Preorder (document-order) listing of a node and its descendants, each
paired with its ancestor stack (nearest ancestor first). -/
def nodeWithAnc (anc : List Node) : Node → List (Node × List Node)
  | .elem t a ch => (Node.elem t a ch, anc) :: nodesWithAnc (Node.elem t a ch :: anc) ch
  | .text s => [(Node.text s, anc)]

/-- Document-order listing of a forest of nodes with ancestor stacks. -/
def nodesWithAnc (anc : List Node) : List Node → List (Node × List Node)
  | [] => []
  | n :: ns => nodeWithAnc anc n ++ nodesWithAnc anc ns
end

/-- All nodes of the document in document order, with ancestor stacks. -/
def docOrder (soup : Soup) : List (Node × List Node) := nodesWithAnc [] soup

/-- Model of `soup.select_one(sel)`: the first node in document order satisfying the
selector predicate (which may inspect the node's ancestors). -/
def selectOne (soup : Soup) (p : Node → List Node → Bool) : Option Node :=
  ((docOrder soup).find? (fun na => p na.1 na.2)).map Prod.fst

/-- Model of `soup.find_all(...)`: all nodes in document order satisfying a
node-local predicate. -/
def findAllNodes (soup : Soup) (p : Node → Bool) : List Node :=
  ((docOrder soup).filter (fun na => p na.1)).map Prod.fst

/-- CSS `#id` matching against a list of ids. -/
def idIn (ids : List String) (n : Node) : Bool :=
  match n.attr? "id" with
  | some i => ids.contains i
  | none => false

/-- Whitespace-separated words of a `class` attribute value. -/
def classWords (s : String) : List String :=
  (List.splitOnP Char.isWhitespace s.toList).map String.mk

/-- CSS `.c` matching. -/
def hasClass (n : Node) (c : String) : Bool :=
  match n.attr? "class" with
  | some s => (classWords s).contains c
  | none => false

/-- Is the node an `img` element? -/
def isImg (n : Node) : Bool := n.tag? == some "img"

/-- Selector of method 1: `#imgBlkFront, #ebooksImgBlkFront`. -/
def m1sel (n : Node) (_ : List Node) : Bool :=
  idIn ["imgBlkFront", "ebooksImgBlkFront"] n

/-- Selector of method 3:
`#imageBlock_feature_div img, #main-image-container img, #imgTagWrapperId img`. -/
def m3sel (n : Node) (anc : List Node) : Bool :=
  isImg n && anc.any (idIn ["imageBlock_feature_div", "main-image-container", "imgTagWrapperId"])

/-- Selector of method 4: `#landingImage, #imgBlkFront, #main-image, #img-canvas img`. -/
def m4sel (n : Node) (anc : List Node) : Bool :=
  idIn ["landingImage", "imgBlkFront", "main-image"] n ||
    (isImg n && anc.any (idIn ["img-canvas"]))

/-- Selector of method 5:
`.a-fixed-left-grid-col img, .a-fixed-right-grid-col img, .dp-title-col img`. -/
def m5sel (n : Node) (anc : List Node) : Bool :=
  isImg n && anc.any (fun a =>
    hasClass a "a-fixed-left-grid-col" || hasClass a "a-fixed-right-grid-col" ||
      hasClass a "dp-title-col")

/-- The `soup.find_all('script', type='text/javascript')` element test. -/
def isScriptJs (n : Node) : Bool :=
  n.tag? == some "script" && n.attr? "type" == some "text/javascript"

/-- BeautifulSoup `tag.string` for a script tag: the single text child, when
there is exactly one (script elements have no element children, so this is
the whole `.string` contract for them). -/
def Node.scriptString : Node → Option String
  | .elem _ _ [Node.text s] => some s
  | _ => none

/-! ## Python `int()` (used by method 7 on `width`/`height` attributes) -/

/-- Strip leading and trailing whitespace, as `int(str)` does. -/
def pyStrip (l : List Char) : List Char :=
  ((l.dropWhile Char.isWhitespace).reverse.dropWhile Char.isWhitespace).reverse

/-- Accumulate the remaining digits of a Python integer literal body, where
a single underscore may separate two digits. -/
def digitsValGo (acc : Nat) : List Char → Option Nat
  | [] => some acc
  | '_' :: rest =>
    match rest with
    | [] => none
    | c :: cs => if c.isDigit then digitsValGo (acc * 10 + (c.toNat - 48)) cs else none
  | c :: cs => if c.isDigit then digitsValGo (acc * 10 + (c.toNat - 48)) cs else none

/-- Digit body of a Python integer literal: digits with optional single
underscores between digits. -/
def digitsVal : List Char → Option Nat
  | [] => none
  | c :: cs => if c.isDigit then digitsValGo (c.toNat - 48) cs else none

/-- Python `int(s)` on a decimal string: optional surrounding whitespace,
optional sign, digits (with underscore separators); `none` models the
`ValueError` that method 7 catches and turns into a skip. -/
def pyInt (s : String) : Option Int :=
  match pyStrip s.toList with
  | '+' :: rest => (digitsVal rest).map (fun n => (n : Int))
  | '-' :: rest => (digitsVal rest).map (fun n => -(n : Int))
  | rest => (digitsVal rest).map (fun n => (n : Int))

/-! ## External library boundary

The strategies call two external libraries on raw strings: `json.loads`
(methods 1, 2 and 4) and `re.findall` over script text (method 2).  These
are modelled as an abstract parameter: every theorem about the chain is
proved for every possible behaviour of these primitives.  A `none` /
empty-list result models a decoding failure, which the source catches and
turns into "no candidate from this site". -/

/-- External parsing primitives used by the extraction methods. -/
structure Ext where
  /-- Result of `json.loads(attrValue).keys()` in encoded order for a
  `data-a-dynamic-image` attribute (methods 1 and 4); `none` models a
  `json.loads` failure (caught in the source). -/
  jsonObjKeys : String → Option (List String)
  /-- Method 2 gallery branch: for a script text containing
  `imageGalleryData`, the successive `item['mainUrl']` values produced by
  the `var data = (\x7b.*?\x7d);` regex scan, JSON decoding and item
  iteration; errors inside the branch cut the list short (caught in the
  source). -/
  galleryMainUrls : String → List String
  /-- Method 2 ATF branch: the raw image URLs found by
  `re.findall` with the image-URL pattern in a script text containing
  `ImageBlockATF`. -/
  atfUrls : String → List String

/-! ## The seven extraction methods (`_extract_method_1` .. `_extract_method_7`) -/

/-- Method `ImageExtractor._extract_method_1`: main image in product details. -/
def extract_method_1 (ext : Ext) (soup : Soup) : Option String :=
  match selectOne soup m1sel with
  | some e =>
    match e.attr? "data-a-dynamic-image" with
    | some j =>
      match ext.jsonObjKeys j with
      | some keys => keys.find? (fun u => is_valid_image_url u)
      | none => none
    | none => none
  | none => none

/-- Candidates of one script's text in `_extract_method_2`: the gallery
branch (guarded by the `imageGalleryData` marker), then the ATF branch
(guarded by the `ImageBlockATF` marker); first valid hit wins. -/
def scriptCandidates (ext : Ext) (s : String) : Option String :=
  match (if containsSub "imageGalleryData" s then
          (ext.galleryMainUrls s).find? (fun u => is_valid_image_url u)
         else none) with
  | some u => some u
  | none =>
    if containsSub "ImageBlockATF" s then
      (ext.atfUrls s).find? (fun u => is_valid_image_url u)
    else none

/-- Method `ImageExtractor._extract_method_2`: extract from JavaScript data. -/
def extract_method_2 (ext : Ext) (soup : Soup) : Option String :=
  (findAllNodes soup isScriptJs).findSome? (fun sc =>
    match sc.scriptString with
    | some s => scriptCandidates ext s
    | none => none)

/-- Method `ImageExtractor._extract_method_3`: image gallery; `src`, then the
`data-old-hires` fallback. -/
def extract_method_3 (soup : Soup) : Option String :=
  match selectOne soup m3sel with
  | some img =>
    match img.attr? "src" with
    | some src =>
      if is_valid_image_url src then some src
      else
        match img.attr? "data-old-hires" with
        | some oh => if is_valid_image_url oh then some oh else none
        | none => none
    | none => none
  | none => none

/-- Method `ImageExtractor._extract_method_4`: main content area; `src`, then the
`data-a-dynamic-image` JSON fallback. -/
def extract_method_4 (ext : Ext) (soup : Soup) : Option String :=
  match selectOne soup m4sel with
  | some img =>
    match img.attr? "src" with
    | some src =>
      if is_valid_image_url src then some src
      else
        match img.attr? "data-a-dynamic-image" with
        | some j =>
          match ext.jsonObjKeys j with
          | some keys => keys.find? (fun u => is_valid_image_url u)
          | none => none
        | none => none
    | none => none
  | none => none

/-- Method `ImageExtractor._extract_method_5`: book details section. -/
def extract_method_5 (soup : Soup) : Option String :=
  match selectOne soup m5sel with
  | some img =>
    match img.attr? "src" with
    | some src => if is_valid_image_url src then some src else none
    | none => none
  | none => none

/-- The alt-text keyword test of method 6. -/
def altKeyword (alt : String) : Bool :=
  containsSub "book" alt || containsSub "cover" alt || containsSub "product" alt

/-- Method `ImageExtractor._extract_method_6`: any image whose `alt` text contains
book/cover/product and whose `src` validates. -/
def extract_method_6 (soup : Soup) : Option String :=
  (findAllNodes soup isImg).findSome? (fun img =>
    match img.attr? "src" with
    | some src =>
      if altKeyword (strLower (img.attrD "alt" "")) && is_valid_image_url src then
        some src
      else none
    | none => none)

/-- Method `ImageExtractor._extract_method_7`: any image with numeric
`width`/`height` attributes both at least 200 and a validating `src`;
non-numeric dimensions are skipped (the caught `ValueError`). -/
def extract_method_7 (soup : Soup) : Option String :=
  (findAllNodes soup isImg).findSome? (fun img =>
    if img.hasAttr "src" && img.hasAttr "width" && img.hasAttr "height" then
      match pyInt (img.attrD "width" ""), pyInt (img.attrD "height" "") with
      | some w, some h =>
        if (200 : Int) ≤ w && (200 : Int) ≤ h && is_valid_image_url (img.attrD "src" "") then
          some (img.attrD "src" "")
        else none
      | _, _ => none
    else none)

/-! ## The strategy chain and the resolution engine -/

/-- The `methods` list of `extract_image_url`, in source order. -/
def methodList (ext : Ext) : List (Soup → Option String) :=
  [extract_method_1 ext, extract_method_2 ext, extract_method_3,
   extract_method_4 ext, extract_method_5, extract_method_6, extract_method_7]

/-- The strategy chain on a parsed document: the loop of
`extract_image_url`, returning the first method's non-`None` result. -/
def extractFromSoup (ext : Ext) (soup : Soup) : Option String :=
  (methodList ext).findSome? (fun m => m soup)

/-- The `i`-th strategy (0-based), for stating ordering properties. -/
def methodAt (ext : Ext) (i : Nat) : Soup → Option String :=
  (methodList ext).getD i (fun _ => none)

/-- Exceptions of the embedded fragment: a fetch failure
(`requests` raising in `_fetch_html`), or `pickle.load` failing on a
corrupt/unreadable cache file. -/
inductive PyErr where
  | fetchError
  | unpickleError
deriving DecidableEq

/-- Engine `ImageExtractor.extract_image_url`: fetch, parse, then the strategy
chain; the enclosing `try/except Exception` converts any raised error into
`None`.  The fetch outcome and the (total, never-failing) parser are the
external inputs. -/
def extract_image_url (ext : Ext) (fetchRes : Except PyErr String)
    (parse : String → Soup) : Option String :=
  match fetchRes with
  | .error _ => none
  | .ok html => extractFromSoup ext (parse html)

/-! ## The cache (`app/utils/cache.py`, class `BookImageCache`)

State that lives outside the Python process (the redis server's keyspace
and the pickle file on disk) is made explicit as a `CacheWorld` value
threaded through `get`/`set`. -/

/-- A Python `dict` from keys to string values, as an insertion-ordered
association list.  Assignment replaces the value of an existing key in
place, otherwise appends. -/
def dictInsert : List (String × String) → String → String → List (String × String)
  | [], k, v => [(k, v)]
  | (k', v') :: rest, k, v =>
    if k' = k then (k, v) :: rest else (k', v') :: dictInsert rest k v

/-- Python `dict.get(k)`. -/
def dictLookup : List (String × String) → String → Option String
  | [], _ => none
  | (k', v') :: rest, k => if k' = k then some v' else dictLookup rest k

/-- The persisted pickle file: absent, present but unreadable or
undeserializable (`open`/`pickle.load` raises), or a loadable map. -/
inductive FileState where
  | absent
  | corrupt
  | ok (m : List (String × String))
deriving DecidableEq

/-- The redis keyspace: key, stored value and the time-to-live that
`setex` attached (expiry enforcement is the server's, outside the
embedding; all claims read the value back immediately). -/
abbrev RedisState := List (String × (String × Nat))

/-- Model of `redis_client.setex(key, ttl, value)`. -/
def redisSetex : RedisState → String → Nat → String → RedisState
  | [], k, ttl, v => [(k, (v, ttl))]
  | (k', e) :: rest, k, ttl, v =>
    if k' = k then (k, (v, ttl)) :: rest else (k', e) :: redisSetex rest k ttl v

/-- Model of `redis_client.get(key)`: the stored bytes, when present. -/
def redisGet : RedisState → String → Option String
  | [], _ => none
  | (k', e) :: rest, k => if k' = k then some e.1 else redisGet rest k

/-- The external stores the cache talks to. -/
structure CacheWorld where
  redis : RedisState
  file : FileState

/-- The `BookImageCache` instance fields relevant to `get`/`set`:
the backend flag, the key space (`key_prefix` in the source, renamed here),
and the configured time-to-live. -/
structure BookImageCache where
  use_redis : Bool
  keyPref : String
  timeout : Nat

/-- Constructor `BookImageCache.__init__` backend selection (cache.py lines 41-60):
redis is used exactly when the redis module is importable, a
`CACHE_REDIS_URL` beginning with `redis://` is configured, and
`StrictRedis.from_url` plus `ping()` succeed (`connectOk`); any failure
falls back silently to the file backend. -/
def mkBookImageCache (redisAvail : Bool) (redis_url : Option String)
    (connectOk : Bool) (keyPref : String) (timeout : Nat) : BookImageCache :=
  { use_redis :=
      redisAvail &&
        (match redis_url with
         | some s => strStartsWith "redis://" s
         | none => false) &&
        connectOk
    keyPref := keyPref
    timeout := timeout }

/-- The cache key `f"{self.key_prefix}:{book_url}"`. -/
def cacheKey (c : BookImageCache) (book_url : String) : String :=
  c.keyPref ++ ":" ++ book_url

/-- The backend descriptor the API reports:
`'redis' if cache.use_redis else 'file'`. -/
def cacheBackend (c : BookImageCache) : String :=
  if c.use_redis then "redis" else "file"

/-- Operation `BookImageCache.get` (cache.py lines 62-93).  Redis branch: a stored
empty string is falsy and reported as a miss.  File branch: a missing file
is a miss; `pickle.load` on a corrupt file raises (there is no handler in
the source), modelled as `Except.error`. -/
def BookImageCache.get (c : BookImageCache) (w : CacheWorld) (book_url : String) :
    Except PyErr (Option String) :=
  let key := cacheKey c book_url
  if c.use_redis then
    match redisGet w.redis key with
    | some r => if r = "" then Except.ok none else Except.ok (some r)
    | none => Except.ok none
  else
    match w.file with
    | .absent => Except.ok none
    | .corrupt => Except.error PyErr.unpickleError
    | .ok m => Except.ok (dictLookup m key)

/-- Operation `BookImageCache.set` (cache.py lines 95-110).  Redis branch: `setex`
with the configured timeout.  File branch: load the whole map (empty when
the file is absent; raises when it is corrupt), assign the one key, dump
the whole map back. -/
def BookImageCache.set (c : BookImageCache) (w : CacheWorld)
    (book_url image_url : String) : Except PyErr CacheWorld :=
  let key := cacheKey c book_url
  if c.use_redis then
    Except.ok { w with redis := redisSetex w.redis key c.timeout image_url }
  else
    match w.file with
    | .absent => Except.ok { w with file := .ok (dictInsert [] key image_url) }
    | .corrupt => Except.error PyErr.unpickleError
    | .ok m => Except.ok { w with file := .ok (dictInsert m key image_url) }

/-! ## The API route (`app/api/routes.py`, `get_book_image`) -/

/-- Responses of the `/book-image` route that matter to the cache
invariant: the two 400 rejections, a cache hit, a fresh extraction, the
404, and the 500 produced by the route's outer `except Exception`. -/
inductive ApiResp where
  | badRequest
  | okCached (url : String)
  | okFresh (url : String)
  | notFound
  | serverError

/-- The uncached tail of `get_book_image`: run the extractor and, when it
returns a truthy URL, write it to the cache before responding. -/
def freshPath (ext : Ext) (fetchRes : Except PyErr String) (parse : String → Soup)
    (c : BookImageCache) (w : CacheWorld) (book_url : String) :
    ApiResp × CacheWorld :=
  match extract_image_url ext fetchRes parse with
  | some image_url =>
    if image_url = "" then (ApiResp.notFound, w)
    else
      match c.set w book_url image_url with
      | .ok w' => (ApiResp.okFresh image_url, w')
      | .error _ => (ApiResp.serverError, w)
  | none => (ApiResp.notFound, w)

/-- Route `get_book_image` (routes.py lines 115-198): parameter checks, cache
lookup, extraction on a miss, cache write on success; the outer
`try/except` turns any raised error (e.g. a corrupt cache file) into a
500 response. -/
def get_book_image (ext : Ext) (fetchRes : Except PyErr String)
    (parse : String → Soup) (c : BookImageCache) (w : CacheWorld)
    (book_url : Option String) : ApiResp × CacheWorld :=
  match book_url with
  | none => (ApiResp.badRequest, w)
  | some bu =>
    if bu = "" then (ApiResp.badRequest, w)
    else if !containsSub "amazon" (strLower bu) then (ApiResp.badRequest, w)
    else
      match c.get w bu with
      | .error _ => (ApiResp.serverError, w)
      | .ok (some cached) =>
        if cached = "" then freshPath ext fetchRes parse c w bu
        else (ApiResp.okCached cached, w)
      | .ok none => freshPath ext fetchRes parse c w bu

/-- Every value stored in a loadable persisted map passes the validator. -/
def fileValid : FileState → Bool
  | .ok m => m.all (fun kv => is_valid_image_url kv.2)
  | _ => true

/-- Every value stored in the redis keyspace passes the validator. -/
def redisValid (st : RedisState) : Bool :=
  st.all (fun kv => is_valid_image_url kv.2.1)

/-- The cache invariant: every stored value passed the validator when it
was written (values are immutable strings, so this is state validity). -/
def worldValid (w : CacheWorld) : Bool :=
  redisValid w.redis && fileValid w.file

/-! ## Helper lemmas -/

/-- A validated URL is nonempty (the validator rejects `""` outright). -/
lemma valid_ne_empty {v : String} (hv : is_valid_image_url v = true) : v ≠ "" := by
  intro h
  subst h
  simp [is_valid_image_url] at hv

/-- Lemma: `findSome?` only returns values produced by `f` on some element. -/
lemma findSome?_preserves {α β : Type} (P : β → Prop) (f : α → Option β)
    (l : List α) (hf : ∀ a b, f a = some b → P b) :
    ∀ b, l.findSome? f = some b → P b := by
  induction l with
  | nil => intro b h; simp [List.findSome?] at h
  | cons a l ih =>
    intro b h
    rw [List.findSome?_cons] at h
    cases ha : f a with
    | some c => rw [ha] at h; cases h; exact hf a b ha
    | none => rw [ha] at h; exact ih b h

/-- Method 1 only returns validated URLs. -/
lemma method1_valid (ext : Ext) (soup : Soup) (u : String)
    (h : extract_method_1 ext soup = some u) : is_valid_image_url u = true := by
  unfold extract_method_1 at h
  repeat' split at h
  all_goals first
    | exact List.find?_some h
    | exact absurd h (by simp)

/-- The per-script candidate scan of method 2 only returns validated URLs. -/
lemma scriptCandidates_valid (ext : Ext) (s : String) (u : String)
    (h : scriptCandidates ext s = some u) : is_valid_image_url u = true := by
  unfold scriptCandidates at h
  split at h
  · rename_i i heq
    cases h
    split at heq
    · exact List.find?_some heq
    · exact absurd heq (by simp)
  · split at h
    · exact List.find?_some h
    · exact absurd h (by simp)

/-- Method 2 only returns validated URLs. -/
lemma method2_valid (ext : Ext) (soup : Soup) (u : String)
    (h : extract_method_2 ext soup = some u) : is_valid_image_url u = true := by
  unfold extract_method_2 at h
  refine findSome?_preserves (fun b => is_valid_image_url b = true) _ _ ?_ u h
  intro sc b hb
  split at hb
  · exact scriptCandidates_valid ext _ b hb
  · exact absurd hb (by simp)

/-- Method 3 only returns validated URLs. -/
lemma method3_valid (soup : Soup) (u : String)
    (h : extract_method_3 soup = some u) : is_valid_image_url u = true := by
  unfold extract_method_3 at h
  repeat' split at h
  all_goals first
    | (cases h; assumption)
    | exact absurd h (by simp)

/-- Method 4 only returns validated URLs. -/
lemma method4_valid (ext : Ext) (soup : Soup) (u : String)
    (h : extract_method_4 ext soup = some u) : is_valid_image_url u = true := by
  unfold extract_method_4 at h
  repeat' split at h
  all_goals first
    | (cases h; assumption)
    | exact List.find?_some h
    | exact absurd h (by simp)

/-- Method 5 only returns validated URLs. -/
lemma method5_valid (soup : Soup) (u : String)
    (h : extract_method_5 soup = some u) : is_valid_image_url u = true := by
  unfold extract_method_5 at h
  repeat' split at h
  all_goals first
    | (cases h; assumption)
    | exact absurd h (by simp)

/-- Method 6 only returns validated URLs. -/
lemma method6_valid (soup : Soup) (u : String)
    (h : extract_method_6 soup = some u) : is_valid_image_url u = true := by
  unfold extract_method_6 at h
  refine findSome?_preserves (fun b => is_valid_image_url b = true) _ _ ?_ u h
  intro img b hb
  repeat' split at hb
  all_goals first
    | (cases hb
       rename_i hcond
       simp only [Bool.and_eq_true] at hcond
       exact hcond.2)
    | exact absurd hb (by simp)

/-- Method 7 only returns validated URLs. -/
lemma method7_valid (soup : Soup) (u : String)
    (h : extract_method_7 soup = some u) : is_valid_image_url u = true := by
  unfold extract_method_7 at h
  refine findSome?_preserves (fun b => is_valid_image_url b = true) _ _ ?_ u h
  intro img b hb
  repeat' split at hb
  all_goals first
    | (cases hb
       rename_i hcond
       simp only [Bool.and_eq_true] at hcond
       exact hcond.2)
    | exact absurd hb (by simp)

/-- The chain as a nested first-hit match over the seven methods. -/
lemma extractFromSoup_eq (ext : Ext) (soup : Soup) :
    extractFromSoup ext soup =
      match extract_method_1 ext soup with
      | some u => some u
      | none =>
        match extract_method_2 ext soup with
        | some u => some u
        | none =>
          match extract_method_3 soup with
          | some u => some u
          | none =>
            match extract_method_4 ext soup with
            | some u => some u
            | none =>
              match extract_method_5 soup with
              | some u => some u
              | none =>
                match extract_method_6 soup with
                | some u => some u
                | none =>
                  match extract_method_7 soup with
                  | some u => some u
                  | none => none := by
  simp only [extractFromSoup, methodList, List.findSome?_cons, List.findSome?_nil]
  cases extract_method_1 ext soup <;> try rfl
  cases extract_method_2 ext soup <;> try rfl
  cases extract_method_3 soup <;> try rfl
  cases extract_method_4 ext soup <;> try rfl
  cases extract_method_5 soup <;> try rfl
  cases extract_method_6 soup <;> try rfl
  cases extract_method_7 soup <;> rfl

/-- The chain only returns validated URLs. -/
lemma extractFromSoup_valid (ext : Ext) (soup : Soup) (u : String)
    (h : extractFromSoup ext soup = some u) : is_valid_image_url u = true := by
  rw [extractFromSoup_eq] at h
  repeat' split at h
  all_goals first
    | (cases h
       first
         | exact method1_valid ext soup u (by assumption)
         | exact method2_valid ext soup u (by assumption)
         | exact method3_valid soup u (by assumption)
         | exact method4_valid ext soup u (by assumption)
         | exact method5_valid soup u (by assumption)
         | exact method6_valid soup u (by assumption)
         | exact method7_valid soup u (by assumption))
    | exact absurd h (by simp)

/-- The engine only returns validated URLs. -/
lemma extract_image_url_valid (ext : Ext) (fetchRes : Except PyErr String)
    (parse : String → Soup) (u : String)
    (h : extract_image_url ext fetchRes parse = some u) :
    is_valid_image_url u = true := by
  unfold extract_image_url at h
  split at h
  · exact absurd h (by simp)
  · exact extractFromSoup_valid ext _ u h

/-- Unfolding `methodAt`: strategy 1 is index 0. -/
lemma methodAt_0 (ext : Ext) : methodAt ext 0 = extract_method_1 ext := rfl

/-- Strategy 2 is index 1. -/
lemma methodAt_1 (ext : Ext) : methodAt ext 1 = extract_method_2 ext := rfl

/-- Strategy 3 is index 2. -/
lemma methodAt_2 (ext : Ext) : methodAt ext 2 = extract_method_3 := rfl

/-- Strategy 4 is index 3. -/
lemma methodAt_3 (ext : Ext) : methodAt ext 3 = extract_method_4 ext := rfl

/-- Strategy 5 is index 4. -/
lemma methodAt_4 (ext : Ext) : methodAt ext 4 = extract_method_5 := rfl

/-- Strategy 6 is index 5. -/
lemma methodAt_5 (ext : Ext) : methodAt ext 5 = extract_method_6 := rfl

/-- Strategy 7 is index 6. -/
lemma methodAt_6 (ext : Ext) : methodAt ext 6 = extract_method_7 := rfl

/-- Reading back the key just written with `setex`. -/
lemma redisGet_setex_self (st : RedisState) (k : String) (ttl : Nat) (v : String) :
    redisGet (redisSetex st k ttl v) k = some v := by
  induction st with
  | nil => simp [redisSetex, redisGet]
  | cons e rest ih =>
    by_cases hk : e.1 = k
    · simp [redisSetex, redisGet, hk]
    · simp [redisSetex, redisGet, hk, ih]

/-- Lemma: `setex` leaves other keys unchanged. -/
lemma redisGet_setex_ne (st : RedisState) (k k' : String) (ttl : Nat) (v : String)
    (h : k' ≠ k) : redisGet (redisSetex st k ttl v) k' = redisGet st k' := by
  have hkk : ¬(k = k') := fun hh => h hh.symm
  induction st with
  | nil => simp [redisSetex, redisGet, hkk]
  | cons e rest ih =>
    obtain ⟨ks, vs⟩ := e
    by_cases hk : ks = k
    · subst hk
      simp [redisSetex, redisGet, hkk]
    · simp only [redisSetex, redisGet, hk, if_false]
      split <;> simp [ih]

/-- Reading back the key just assigned in a dict. -/
lemma dictLookup_insert_self (m : List (String × String)) (k v : String) :
    dictLookup (dictInsert m k v) k = some v := by
  induction m with
  | nil => simp [dictInsert, dictLookup]
  | cons e rest ih =>
    by_cases hk : e.1 = k
    · simp [dictInsert, dictLookup, hk]
    · simp [dictInsert, dictLookup, hk, ih]

/-- Dict assignment leaves other keys unchanged. -/
lemma dictLookup_insert_ne (m : List (String × String)) (k k' v : String)
    (h : k' ≠ k) : dictLookup (dictInsert m k v) k' = dictLookup m k' := by
  have hkk : ¬(k = k') := fun hh => h hh.symm
  induction m with
  | nil => simp [dictInsert, dictLookup, hkk]
  | cons e rest ih =>
    obtain ⟨ks, vs⟩ := e
    by_cases hk : ks = k
    · subst hk
      simp [dictInsert, dictLookup, hkk]
    · simp only [dictInsert, dictLookup, hk, if_false]
      split <;> simp [ih]

/-- Lemma: `setex` with a validated value preserves keyspace validity. -/
lemma redisValid_setex (st : RedisState) (k : String) (ttl : Nat) (v : String)
    (hst : redisValid st = true) (hv : is_valid_image_url v = true) :
    redisValid (redisSetex st k ttl v) = true := by
  induction st with
  | nil => simp [redisSetex, redisValid, hv]
  | cons e rest ih =>
    simp only [redisValid, List.all_cons, Bool.and_eq_true] at hst
    by_cases hk : e.1 = k
    · simp [redisSetex, hk, redisValid, hv, hst.2]
    · have := ih hst.2
      simp only [redisValid] at this
      simp [redisSetex, hk, redisValid, hst.1, this]

/-- Dict assignment with a validated value preserves map validity. -/
lemma dictValid_insert (m : List (String × String)) (k v : String)
    (hm : m.all (fun kv => is_valid_image_url kv.2) = true)
    (hv : is_valid_image_url v = true) :
    (dictInsert m k v).all (fun kv => is_valid_image_url kv.2) = true := by
  induction m with
  | nil => simp [dictInsert, hv]
  | cons e rest ih =>
    simp only [List.all_cons, Bool.and_eq_true] at hm
    by_cases hk : e.1 = k
    · simp [dictInsert, hk, hv, hm.2]
    · simp [dictInsert, hk, hm.1, ih hm.2]

/-- Cache keys are injective in the page URL for a fixed instance. -/
lemma cacheKey_inj (c : BookImageCache) {u u' : String}
    (h : cacheKey c u = cacheKey c u') : u = u' := by
  unfold cacheKey at h
  have h2 : (c.keyPref ++ ":") ++ u = (c.keyPref ++ ":") ++ u' := by
    simpa [String.append_assoc] using h
  have := congrArg String.data h2
  simp only [String.data_append] at this
  exact String.ext (List.append_cancel_left this)

/-- A successful anchored dimension match pins down the head of the list. -/
lemma dimTry_shape (x : Char) (l : List Char) (n : Nat) (h : dimTry x l = some n) :
    ∃ rest, l = '_' :: 'S' :: x :: rest := by
  unfold dimTry at h
  split at h
  · rename_i c rest
    split at h
    · rename_i hc
      subst hc
      exact ⟨rest, rfl⟩
    · exact absurd h (by simp)
  · exact absurd h (by simp)

/-- A successful dimension search implies the two-character guard substring
(`'S'` followed by the axis letter) occurs in the list. -/
lemma dimSearch_sub (x : Char) : ∀ (l : List Char) (n : Nat),
    dimSearch x l = some n → hasSub ['S', x] l = true := by
  intro l
  induction l with
  | nil => intro n h; simp [dimSearch] at h
  | cons c cs ih =>
    intro n h
    unfold dimSearch at h
    cases hd : dimTry x (c :: cs) with
    | some m =>
      obtain ⟨rest, hl⟩ := dimTry_shape x _ m hd
      rw [hl]
      simp [hasSub, startsWithL]
    | none =>
      rw [hd] at h
      have := ih n h
      simp [hasSub, this]

/-- A parsed width token implies the `'SX' in url` guard holds. -/
lemma sxVal_guard (url : String) (n : Nat) (h : sxVal url = some n) :
    containsSub "SX" url = true := by
  have := dimSearch_sub 'X' url.toList n h
  simpa [containsSub] using this

/-- A parsed height token implies the `'SY' in url` guard holds. -/
lemma syVal_guard (url : String) (n : Nat) (h : syVal url = some n) :
    containsSub "SY" url = true := by
  have := dimSearch_sub 'Y' url.toList n h
  simpa [containsSub] using this

/-! ## Claim theorems -/

/-- C2: for every candidate string that contains no placeholder marker and
is not rejected by the dimension check, `is_valid_image_url` returns true
iff the string contains a known image-host fragment (`'amazon'` or
`'images-na.ssl-images-amazon.com'`) and additionally carries one of the
recognized image extensions (case-insensitively) or contains the
site-specific `'images-amazon'` dynamic-image marker. -/
theorem validator_domain_extension_rule (url : String)
    (hph : ∀ p ∈ PLACEHOLDER_IMAGES, containsSub p (strLower url) = false)
    (hdim : dimensionRejected url = false) :
    is_valid_image_url url =
      (isAmazonImage url &&
        (hasImageExtension url || containsSub "images-amazon" url)) := by
  unfold is_valid_image_url
  by_cases hu : url = ""
  · subst hu
    decide
  · have hany : PLACEHOLDER_IMAGES.any (fun p => containsSub p (strLower url)) = false := by
      simp only [List.any_eq_false]
      intro p hp
      simp [hph p hp]
    simp [hu, hany, hdim]

/-- Witness for C2 at a concrete URL. -/
theorem validator_domain_extension_rule_witness :
    is_valid_image_url "https://m.media-amazon.com/images/I/abc.jpg" =
      (isAmazonImage "https://m.media-amazon.com/images/I/abc.jpg" &&
        (hasImageExtension "https://m.media-amazon.com/images/I/abc.jpg" ||
          containsSub "images-amazon" "https://m.media-amazon.com/images/I/abc.jpg")) :=
  validator_domain_extension_rule _ (by decide) (by decide)

/-- C4: any candidate containing a placeholder marker as a case-insensitive
substring is rejected, regardless of domain, extension or dimensions. -/
theorem validator_rejects_placeholder (url p : String)
    (hp : p ∈ PLACEHOLDER_IMAGES) (hsub : containsSub p (strLower url) = true) :
    is_valid_image_url url = false := by
  unfold is_valid_image_url
  by_cases hu : url = ""
  · simp [hu]
  · have hany : PLACEHOLDER_IMAGES.any (fun q => containsSub q (strLower url)) = true :=
      List.any_eq_true.mpr ⟨p, hp, hsub⟩
    simp [hu, hany]

/-- Witness for C4: an amazon-domain, `.jpg`, large-dimension URL carrying
the `placeholder` marker is still rejected. -/
theorem validator_rejects_placeholder_witness :
    "placeholder" ∈ PLACEHOLDER_IMAGES ∧
    containsSub "placeholder"
      (strLower "https://m.media-amazon.com/images/I/Placeholder._SX300_SY300_.jpg") = true ∧
    is_valid_image_url
      "https://m.media-amazon.com/images/I/Placeholder._SX300_SY300_.jpg" = false :=
  ⟨by decide, by decide,
   validator_rejects_placeholder _ "placeholder" (by decide) (by decide)⟩

/-- C5: when both dimension tokens parse, a width or height below 100
forces rejection (in particular on the spec's 80×80 example); when either
token is malformed or absent the dimension check imposes no constraint
(and, the embedding being total, never errors). -/
theorem validator_dimension_filter :
    (∀ url w h, sxVal url = some w → syVal url = some h → w < 100 ∨ h < 100 →
      is_valid_image_url url = false) ∧
    is_valid_image_url "https://m.media-amazon.com/images/I/abc._SX80_SY80_.jpg" = false ∧
    (∀ url, sxVal url = none ∨ syVal url = none → dimensionRejected url = false) := by
  refine ⟨?_, by decide, ?_⟩
  · intro url w h hx hy hlt
    unfold is_valid_image_url
    by_cases hu : url = ""
    · simp [hu]
    · by_cases hpl : PLACEHOLDER_IMAGES.any (fun p => containsSub p (strLower url)) = true
      · simp [hu, hpl]
      · have hdr : dimensionRejected url = true := by
          unfold dimensionRejected
          rw [sxVal_guard url w hx, syVal_guard url h hy]
          simp [hx, hy]
          exact hlt
        simp [hu, hpl, hdr]
  · intro url hx
    unfold dimensionRejected
    split
    · cases hsx : sxVal url <;> cases hsy : syVal url <;> simp_all
    · rfl

/-- Witness for C5: a 50×200 URL is rejected through the first conjunct,
and a URL with no dimension tokens is unconstrained through the third. -/
theorem validator_dimension_filter_witness :
    sxVal "https://m.media-amazon.com/images/I/abc._SX50_SY200_.jpg" = some 50 ∧
    syVal "https://m.media-amazon.com/images/I/abc._SX50_SY200_.jpg" = some 200 ∧
    is_valid_image_url "https://m.media-amazon.com/images/I/abc._SX50_SY200_.jpg" = false ∧
    sxVal "https://m.media-amazon.com/images/I/abc.jpg" = none ∧
    dimensionRejected "https://m.media-amazon.com/images/I/abc.jpg" = false :=
  ⟨by decide, by decide,
   validator_dimension_filter.1 _ 50 200 (by decide) (by decide) (Or.inl (by norm_num)),
   by decide,
   validator_dimension_filter.2.2 "https://m.media-amazon.com/images/I/abc.jpg"
     (Or.inl (by decide))⟩

/-- C1: the chain evaluates the seven strategies strictly in order on the
parsed document and returns the first strategy's candidate (each strategy
only yields candidates that pass `is_valid_image_url`), returns `none`
when all seven yield nothing, and in particular strategy 1's candidate
wins over strategy 6's whenever both are produced. -/
theorem extraction_chain_first_valid (ext : Ext) (soup : Soup) :
    (∀ i, i < 7 → ∀ u, methodAt ext i soup = some u → is_valid_image_url u = true) ∧
    (∀ u, extractFromSoup ext soup = some u →
      ∃ i, i < 7 ∧ methodAt ext i soup = some u ∧
        ∀ j, j < i → methodAt ext j soup = none) ∧
    ((∀ i, i < 7 → methodAt ext i soup = none) → extractFromSoup ext soup = none) ∧
    (∀ u v, methodAt ext 0 soup = some u → methodAt ext 5 soup = some v →
      extractFromSoup ext soup = some u) := by
  refine ⟨?_, ?_, ?_, ?_⟩
  · intro i hi u h
    interval_cases i
    · rw [methodAt_0] at h; exact method1_valid ext soup u h
    · rw [methodAt_1] at h; exact method2_valid ext soup u h
    · rw [methodAt_2] at h; exact method3_valid soup u h
    · rw [methodAt_3] at h; exact method4_valid ext soup u h
    · rw [methodAt_4] at h; exact method5_valid soup u h
    · rw [methodAt_5] at h; exact method6_valid soup u h
    · rw [methodAt_6] at h; exact method7_valid soup u h
  · intro u h
    rw [extractFromSoup_eq] at h
    cases h1 : extract_method_1 ext soup with
    | some w =>
      rw [h1] at h
      cases h
      exact ⟨0, by omega, by rw [methodAt_0]; exact h1, fun j hj => absurd hj (by omega)⟩
    | none =>
    rw [h1] at h
    cases h2 : extract_method_2 ext soup with
    | some w =>
      rw [h2] at h
      cases h
      refine ⟨1, by omega, by rw [methodAt_1]; exact h2, ?_⟩
      intro j hj
      interval_cases j
      rw [methodAt_0]; exact h1
    | none =>
    rw [h2] at h
    cases h3 : extract_method_3 soup with
    | some w =>
      rw [h3] at h
      cases h
      refine ⟨2, by omega, by rw [methodAt_2]; exact h3, ?_⟩
      intro j hj
      interval_cases j
      · rw [methodAt_0]; exact h1
      · rw [methodAt_1]; exact h2
    | none =>
    rw [h3] at h
    cases h4 : extract_method_4 ext soup with
    | some w =>
      rw [h4] at h
      cases h
      refine ⟨3, by omega, by rw [methodAt_3]; exact h4, ?_⟩
      intro j hj
      interval_cases j
      · rw [methodAt_0]; exact h1
      · rw [methodAt_1]; exact h2
      · rw [methodAt_2]; exact h3
    | none =>
    rw [h4] at h
    cases h5 : extract_method_5 soup with
    | some w =>
      rw [h5] at h
      cases h
      refine ⟨4, by omega, by rw [methodAt_4]; exact h5, ?_⟩
      intro j hj
      interval_cases j
      · rw [methodAt_0]; exact h1
      · rw [methodAt_1]; exact h2
      · rw [methodAt_2]; exact h3
      · rw [methodAt_3]; exact h4
    | none =>
    rw [h5] at h
    cases h6 : extract_method_6 soup with
    | some w =>
      rw [h6] at h
      cases h
      refine ⟨5, by omega, by rw [methodAt_5]; exact h6, ?_⟩
      intro j hj
      interval_cases j
      · rw [methodAt_0]; exact h1
      · rw [methodAt_1]; exact h2
      · rw [methodAt_2]; exact h3
      · rw [methodAt_3]; exact h4
      · rw [methodAt_4]; exact h5
    | none =>
    rw [h6] at h
    cases h7 : extract_method_7 soup with
    | some w =>
      rw [h7] at h
      cases h
      refine ⟨6, by omega, by rw [methodAt_6]; exact h7, ?_⟩
      intro j hj
      interval_cases j
      · rw [methodAt_0]; exact h1
      · rw [methodAt_1]; exact h2
      · rw [methodAt_2]; exact h3
      · rw [methodAt_3]; exact h4
      · rw [methodAt_4]; exact h5
      · rw [methodAt_5]; exact h6
    | none =>
      rw [h7] at h
      exact absurd h (by simp)
  · intro hall
    have h1 := hall 0 (by omega); rw [methodAt_0] at h1
    have h2 := hall 1 (by omega); rw [methodAt_1] at h2
    have h3 := hall 2 (by omega); rw [methodAt_2] at h3
    have h4 := hall 3 (by omega); rw [methodAt_3] at h4
    have h5 := hall 4 (by omega); rw [methodAt_4] at h5
    have h6 := hall 5 (by omega); rw [methodAt_5] at h6
    have h7 := hall 6 (by omega); rw [methodAt_6] at h7
    rw [extractFromSoup_eq]
    simp [h1, h2, h3, h4, h5, h6, h7]
  · intro u v h0 _
    rw [methodAt_0] at h0
    rw [extractFromSoup_eq, h0]

/-- A concrete `Ext` for witnesses: the one dynamic-image attribute value
`"dyn"` decodes to a single (valid) key; script scans yield nothing. -/
def extW : Ext :=
  { jsonObjKeys := fun s =>
      if s = "dyn" then some ["https://m.media-amazon.com/images/I/top.jpg"] else none
    galleryMainUrls := fun _ => []
    atfUrls := fun _ => [] }

/-- A concrete document in which strategy 1 (the `#imgBlkFront`
dynamic-image block) and strategy 6 (an image with `book` in its alt text)
both produce valid candidates. -/
def soupW : Soup :=
  [Node.elem "div" []
    [Node.elem "img" [("id", "imgBlkFront"), ("data-a-dynamic-image", "dyn")] [],
     Node.elem "img"
       [("src", "https://m.media-amazon.com/images/I/alt.jpg"), ("alt", "book cover")] []]]

/-- Witness for C1: on `soupW` strategies 1 and 6 both match and the chain
returns strategy 1's candidate. -/
theorem extraction_chain_first_valid_witness :
    methodAt extW 0 soupW = some "https://m.media-amazon.com/images/I/top.jpg" ∧
    methodAt extW 5 soupW = some "https://m.media-amazon.com/images/I/alt.jpg" ∧
    extractFromSoup extW soupW = some "https://m.media-amazon.com/images/I/top.jpg" :=
  ⟨by decide, by decide,
   (extraction_chain_first_valid extW soupW).2.2.2
     "https://m.media-amazon.com/images/I/top.jpg"
     "https://m.media-amazon.com/images/I/alt.jpg" (by decide) (by decide)⟩

/-- C3: the resolve operation never propagates an error: a fetch/parse
failure is converted to `none` at the engine boundary, a successful fetch
hands the parsed document to the (total) strategy chain, and a document in
which no strategy matches yields `none`.  The embedded engine returns
`Option String`, not an `Except`: no exception reaches its caller. -/
theorem engine_never_raises (ext : Ext) (fetchRes : Except PyErr String)
    (parse : String → Soup) :
    (∀ e, fetchRes = Except.error e → extract_image_url ext fetchRes parse = none) ∧
    (∀ html, fetchRes = Except.ok html →
      extract_image_url ext fetchRes parse = extractFromSoup ext (parse html)) ∧
    (∀ html, fetchRes = Except.ok html → extractFromSoup ext (parse html) = none →
      extract_image_url ext fetchRes parse = none) := by
  refine ⟨?_, ?_, ?_⟩
  · intro e he
    subst he
    rfl
  · intro html hh
    subst hh
    rfl
  · intro html hh hn
    subst hh
    simpa [extract_image_url] using hn

/-- Witness for C3: a failed fetch yields `none`, and on an empty document
(no strategy matches) a successful fetch also yields `none`. -/
theorem engine_never_raises_witness :
    extract_image_url extW (Except.error PyErr.fetchError) (fun _ => soupW) = none ∧
    extract_image_url extW (Except.ok "html") (fun _ => []) = none :=
  ⟨(engine_never_raises extW (Except.error PyErr.fetchError) (fun _ => soupW)).1
      PyErr.fetchError rfl,
   (engine_never_raises extW (Except.ok "html") (fun _ => [])).2.2 "html" rfl (by decide)⟩

/-- C6: under single-threaded access, `set(u, v)` immediately followed by
`get(u)` returns `v` for either backend (both operations address the store
at the shared deterministic key `cacheKey c u`, i.e. `prefix:u`).  `v` is
an ImageURL of the data model, so it passes the validator (which rules out
the empty string the redis branch would treat as a miss); the file state
must be loadable for `set` to go through at all. -/
theorem cache_round_trip (c : BookImageCache) (w : CacheWorld) (u v : String)
    (hv : is_valid_image_url v = true) (hw : w.file ≠ FileState.corrupt) :
    ∃ w', c.set w u v = Except.ok w' ∧ c.get w' u = Except.ok (some v) := by
  by_cases hr : c.use_redis
  · refine ⟨{ w with redis := redisSetex w.redis (cacheKey c u) c.timeout v }, ?_, ?_⟩
    · simp [BookImageCache.set, hr]
    · simp only [BookImageCache.get, hr, if_true, redisGet_setex_self]
      rw [if_neg (valid_ne_empty hv)]
  · cases hf : w.file with
    | corrupt => exact absurd hf hw
    | absent =>
      refine ⟨{ w with file := FileState.ok (dictInsert [] (cacheKey c u) v) }, ?_, ?_⟩
      · simp [BookImageCache.set, hr, hf]
      · simp [BookImageCache.get, hr, dictLookup_insert_self]
    | ok m =>
      refine ⟨{ w with file := FileState.ok (dictInsert m (cacheKey c u) v) }, ?_, ?_⟩
      · simp [BookImageCache.set, hr, hf]
      · simp [BookImageCache.get, hr, dictLookup_insert_self]

/-- Concrete cache instances for witnesses: a configured redis URL with the
liveness probe succeeding (redis backend) and failing (file backend). -/
def cRedis : BookImageCache :=
  mkBookImageCache true (some "redis://localhost:6379/0") true "amazon_book_image" 3600

/-- The same configuration with the ping failing: file backend. -/
def cFile : BookImageCache :=
  mkBookImageCache true (some "redis://localhost:6379/0") false "amazon_book_image" 3600

/-- The empty cache world. -/
def wEmpty : CacheWorld := { redis := [], file := FileState.absent }

/-- Witness for C6: the round trip at a concrete page URL and image URL,
on both the redis and the file backend. -/
theorem cache_round_trip_witness :
    (∃ w', cRedis.set wEmpty "https://www.amazon.com/dp/0132350882"
        "https://m.media-amazon.com/images/I/top.jpg" = Except.ok w' ∧
      cRedis.get w' "https://www.amazon.com/dp/0132350882" =
        Except.ok (some "https://m.media-amazon.com/images/I/top.jpg")) ∧
    (∃ w', cFile.set wEmpty "https://www.amazon.com/dp/0132350882"
        "https://m.media-amazon.com/images/I/top.jpg" = Except.ok w' ∧
      cFile.get w' "https://www.amazon.com/dp/0132350882" =
        Except.ok (some "https://m.media-amazon.com/images/I/top.jpg")) :=
  ⟨cache_round_trip cRedis wEmpty _ _ (by decide) (by decide),
   cache_round_trip cFile wEmpty _ _ (by decide) (by decide)⟩

/-- C8: constructing the cache with a networked-store address whose
liveness probe fails yields `use_redis = false`, a backend descriptor of
`"file"`, and a store that still satisfies the set-then-get round trip via
the file backend (the redis keyspace is untouched). -/
theorem backend_fallback (s p0 : String) (t0 : Nat)
    (_hs : strStartsWith "redis://" s = true)
    (w : CacheWorld) (u v : String) (hw : w.file ≠ FileState.corrupt) :
    (mkBookImageCache true (some s) false p0 t0).use_redis = false ∧
    cacheBackend (mkBookImageCache true (some s) false p0 t0) = "file" ∧
    ∃ w', (mkBookImageCache true (some s) false p0 t0).set w u v = Except.ok w' ∧
      w'.redis = w.redis ∧
      (mkBookImageCache true (some s) false p0 t0).get w' u = Except.ok (some v) := by
  have hcr : (mkBookImageCache true (some s) false p0 t0).use_redis = false := by
    simp [mkBookImageCache]
  refine ⟨hcr, by simp [cacheBackend, hcr], ?_⟩
  cases hf : w.file with
  | corrupt => exact absurd hf hw
  | absent =>
    refine ⟨{ w with file := FileState.ok (dictInsert [] (cacheKey (mkBookImageCache true (some s) false p0 t0) u) v) }, ?_, rfl, ?_⟩
    · simp [BookImageCache.set, hcr, hf]
    · simp [BookImageCache.get, hcr, dictLookup_insert_self]
  | ok m =>
    refine ⟨{ w with file := FileState.ok (dictInsert m (cacheKey (mkBookImageCache true (some s) false p0 t0) u) v) }, ?_, rfl, ?_⟩
    · simp [BookImageCache.set, hcr, hf]
    · simp [BookImageCache.get, hcr, dictLookup_insert_self]

/-- Witness for C8 at a concrete address, page URL and value. -/
theorem backend_fallback_witness :
    (strStartsWith "redis://" "redis://localhost:6379/0" = true) ∧
    ((mkBookImageCache true (some "redis://localhost:6379/0") false "amazon_book_image" 3600).use_redis = false ∧
      cacheBackend (mkBookImageCache true (some "redis://localhost:6379/0") false "amazon_book_image" 3600) = "file" ∧
      ∃ w', (mkBookImageCache true (some "redis://localhost:6379/0") false "amazon_book_image" 3600).set
          wEmpty "https://www.amazon.com/dp/0132350882"
          "https://m.media-amazon.com/images/I/top.jpg" = Except.ok w' ∧
        w'.redis = wEmpty.redis ∧
        (mkBookImageCache true (some "redis://localhost:6379/0") false "amazon_book_image" 3600).get
          w' "https://www.amazon.com/dp/0132350882" =
          Except.ok (some "https://m.media-amazon.com/images/I/top.jpg")) :=
  ⟨by decide,
   backend_fallback "redis://localhost:6379/0" "amazon_book_image" 3600 (by decide)
     wEmpty "https://www.amazon.com/dp/0132350882"
     "https://m.media-amazon.com/images/I/top.jpg" (by decide)⟩

/-- Counterexample to C9 as stated: on a corrupt (unreadable or
undeserializable) cache file the file-backend `get` and `set` do not treat
the cache as empty — `pickle.load` has no exception handler in either path
(cache.py lines 84-85 and 105-107), so the call raises. -/
theorem cache_corrupt_raises :
    (mkBookImageCache false none false "amazon_book_image" 3600).get
        { redis := [], file := FileState.corrupt }
        "https://www.amazon.com/dp/0132350882" =
      Except.error PyErr.unpickleError ∧
    (mkBookImageCache false none false "amazon_book_image" 3600).set
        { redis := [], file := FileState.corrupt }
        "https://www.amazon.com/dp/0132350882"
        "https://m.media-amazon.com/images/I/top.jpg" =
      Except.error PyErr.unpickleError :=
  ⟨rfl, rfl⟩

/-- C9 amended: a missing cache file is treated as an empty cache without
raising (`get` misses, `set` writes the singleton map), but an unreadable
or undeserializable cache file makes both `get` and `set` raise — the
error propagates to the resolution path instead of being absorbed. -/
theorem cache_missing_empty_corrupt_raises (c : BookImageCache)
    (hc : c.use_redis = false) (w : CacheWorld) (u v : String) :
    (w.file = FileState.absent →
      c.get w u = Except.ok none ∧
      c.set w u v = Except.ok { w with file := FileState.ok [(cacheKey c u, v)] }) ∧
    (w.file = FileState.corrupt →
      c.get w u = Except.error PyErr.unpickleError ∧
      c.set w u v = Except.error PyErr.unpickleError) := by
  constructor
  · intro hf
    constructor
    · simp [BookImageCache.get, hc, hf]
    · simp [BookImageCache.set, hc, hf, dictInsert]
  · intro hf
    constructor
    · simp [BookImageCache.get, hc, hf]
    · simp [BookImageCache.set, hc, hf]

/-- Witness for the amended C9 at concrete instances. -/
theorem cache_missing_empty_corrupt_raises_witness :
    ((mkBookImageCache false none false "amazon_book_image" 3600).get wEmpty
        "https://www.amazon.com/dp/0132350882" = Except.ok none ∧
      (mkBookImageCache false none false "amazon_book_image" 3600).set wEmpty
          "https://www.amazon.com/dp/0132350882"
          "https://m.media-amazon.com/images/I/top.jpg" =
        Except.ok { wEmpty with file := FileState.ok [(cacheKey (mkBookImageCache false none false "amazon_book_image" 3600) "https://www.amazon.com/dp/0132350882", "https://m.media-amazon.com/images/I/top.jpg")] }) :=
  (cache_missing_empty_corrupt_raises
    (mkBookImageCache false none false "amazon_book_image" 3600) (by decide)
    wEmpty "https://www.amazon.com/dp/0132350882"
    "https://m.media-amazon.com/images/I/top.jpg").1 rfl

/-- C10: the file-backend `set` performs a whole-map load-modify-persist
cycle that updates exactly the key `prefix:u`: the looked-up value of
every other page URL's key is unchanged, and the written key maps to the
new value. -/
theorem file_set_frame (c : BookImageCache) (hc : c.use_redis = false)
    (m : List (String × String)) (w : CacheWorld) (hw : w.file = FileState.ok m)
    (u u' v : String) (hne : u' ≠ u) :
    ∃ m', c.set w u v = Except.ok { w with file := FileState.ok m' } ∧
      dictLookup m' (cacheKey c u') = dictLookup m (cacheKey c u') ∧
      dictLookup m' (cacheKey c u) = some v := by
  refine ⟨dictInsert m (cacheKey c u) v, ?_, ?_, ?_⟩
  · simp [BookImageCache.set, hc, hw]
  · exact dictLookup_insert_ne m _ _ v (fun hh => hne (cacheKey_inj c hh))
  · exact dictLookup_insert_self m _ v

/-- Witness for C10: writing one key leaves a previously stored other key
readable with its old value. -/
theorem file_set_frame_witness :
    ∃ m', (mkBookImageCache false none false "amazon_book_image" 3600).set
        { redis := [],
          file := FileState.ok [("amazon_book_image:https://www.amazon.com/dp/A", "old")] }
        "https://www.amazon.com/dp/B" "https://m.media-amazon.com/images/I/top.jpg" =
      Except.ok { redis := [], file := FileState.ok m' } ∧
      dictLookup m' "amazon_book_image:https://www.amazon.com/dp/A" =
        dictLookup [("amazon_book_image:https://www.amazon.com/dp/A", "old")]
          "amazon_book_image:https://www.amazon.com/dp/A" ∧
      dictLookup m' "amazon_book_image:https://www.amazon.com/dp/B" =
        some "https://m.media-amazon.com/images/I/top.jpg" :=
  file_set_frame (mkBookImageCache false none false "amazon_book_image" 3600) (by decide)
    [("amazon_book_image:https://www.amazon.com/dp/A", "old")]
    { redis := [],
      file := FileState.ok [("amazon_book_image:https://www.amazon.com/dp/A", "old")] }
    rfl "https://www.amazon.com/dp/B" "https://www.amazon.com/dp/A"
    "https://m.media-amazon.com/images/I/top.jpg" (by decide)

/-- A successful `set` with a validated value preserves the cache
invariant. -/
lemma set_preserves_valid (c : BookImageCache) (w : CacheWorld) (bu iu : String)
    (w' : CacheWorld) (hw : worldValid w = true) (hvu : is_valid_image_url iu = true)
    (hs : c.set w bu iu = Except.ok w') : worldValid w' = true := by
  unfold worldValid redisValid fileValid at hw ⊢
  simp only [Bool.and_eq_true] at hw
  unfold BookImageCache.set at hs
  by_cases hr : c.use_redis
  · simp only [hr, if_true] at hs
    cases hs
    simp only [Bool.and_eq_true]
    refine ⟨?_, hw.2⟩
    have := redisValid_setex w.redis (cacheKey c bu) c.timeout iu ?_ hvu
    · simpa [redisValid] using this
    · simpa [redisValid] using hw.1
  · simp only [hr, if_false] at hs
    cases hf : w.file with
    | absent =>
      rw [hf] at hs
      cases hs
      simp [dictInsert, hw.1, hvu]
    | corrupt =>
      rw [hf] at hs
      exact absurd hs (by simp)
    | ok m =>
      rw [hf] at hs
      cases hs
      have hm : m.all (fun kv => is_valid_image_url kv.2) = true := by
        have := hw.2
        rw [hf] at this
        exact this
      simp [hw.1, dictValid_insert m (cacheKey c bu) iu hm hvu]

/-- The uncached tail of the route preserves the cache invariant. -/
lemma freshPath_valid (ext : Ext) (fetchRes : Except PyErr String)
    (parse : String → Soup) (c : BookImageCache) (w : CacheWorld) (bu : String)
    (hw : worldValid w = true) :
    worldValid (freshPath ext fetchRes parse c w bu).2 = true := by
  unfold freshPath
  cases he : extract_image_url ext fetchRes parse with
  | none => exact hw
  | some iu =>
    have hvu : is_valid_image_url iu = true := extract_image_url_valid ext fetchRes parse iu he
    dsimp only
    by_cases hiu : iu = ""
    · simp [hiu]
      exact hw
    · rw [if_neg hiu]
      cases hs : c.set w bu iu with
      | error e => simp [hs]; exact hw
      | ok w' => simp [hs]; exact set_preserves_valid c w bu iu w' hw hvu hs

/-- C7: every value written to the cache has passed the validator at write
time — the route only calls `set` with a truthy result of
`extract_image_url`, and every extraction method returns a URL only after
it passes `is_valid_image_url`; hence one route step preserves the
invariant that every stored value (in either backend) satisfies the
validator, for every reachable cache state. -/
theorem api_cache_invariant (ext : Ext) (fetchRes : Except PyErr String)
    (parse : String → Soup) (c : BookImageCache) (w : CacheWorld)
    (book_url : Option String) (hw : worldValid w = true) :
    worldValid (get_book_image ext fetchRes parse c w book_url).2 = true := by
  unfold get_book_image
  cases book_url with
  | none => exact hw
  | some bu =>
    dsimp only
    by_cases hb1 : bu = ""
    · rw [if_pos hb1]
      exact hw
    · rw [if_neg hb1]
      by_cases hb2 : containsSub "amazon" (strLower bu) = true
      · simp only [hb2, Bool.not_true, Bool.false_eq_true, if_false]
        cases hg : c.get w bu with
        | error e => simp [hg]; exact hw
        | ok r =>
          cases r with
          | none => simp [hg]; exact freshPath_valid ext fetchRes parse c w bu hw
          | some cached =>
            by_cases hcc : cached = ""
            · simp [hg, hcc]
              exact freshPath_valid ext fetchRes parse c w bu hw
            · simp [hg, hcc]
              exact hw
      · have hb2' : containsSub "amazon" (strLower bu) = false :=
          Bool.eq_false_iff.mpr hb2
        simp only [hb2', Bool.not_false, if_true]
        exact hw

/-- Witness for C7: one full route step on an empty world (valid) yields a
valid world. -/
theorem api_cache_invariant_witness :
    worldValid wEmpty = true ∧
    worldValid (get_book_image extW (Except.ok "html") (fun _ => soupW) cFile wEmpty
      (some "https://www.amazon.com/dp/0132350882")).2 = true :=
  ⟨by decide,
   api_cache_invariant extW (Except.ok "html") (fun _ => soupW) cFile wEmpty
     (some "https://www.amazon.com/dp/0132350882") (by decide)⟩

end AmzBookImage
